import Mathlib

/-!
Shallow embedding of the configuration store in `src/config.rs` (crate
`hbb_common`), together with proofs about its option resolver, address-book
blob handling, identity encryption round trip, trusted-devices sub-protocol,
peer-file naming, tolerant numeric decoders, and rendezvous-server lookup.

Modelling conventions:
* Rust `String` values that are manipulated byte-wise (JSON blobs,
  compressed data, peer ids in file stems) are modelled as `List Nat`
  (their UTF-8 bytes); other strings stay `String`.
* `HashMap<String, String>` is modelled as an association list with
  last-insert-wins semantics (`SMap`).
* The process-wide singletons (`CONFIG`, `CONFIG2`, `TRUSTED_DEVICES`,
  `OVERWRITE_SETTINGS`, ...) become explicit state records threaded through
  the functions; the `RwLock` wrappers disappear in this sequential model.
* Collaborators that live in this repository but outside `src/`
  (`password_security::encrypt_str_or_original` / `decrypt_str_or_original`,
  `symmetric_crypt`, `compress`/`decompress`, `serde_json`, `crate::get_time`)
  are modelled from the spec as explicit environment records of functions,
  constrained only by the contracts the spec states for them.
-/

set_option linter.unusedVariables false

namespace HbbConfig

/-- Model of `HashMap<String, String>`: an association list whose `insert`
removes any previous binding, so keys are looked up by the first match. -/
abbrev SMap := List (String × String)

namespace SMap

/-- `HashMap::get`. -/
def get (m : SMap) (k : String) : Option String :=
  (m.find? (fun p => p.1 = k)).map (fun p => p.2)

/-- `HashMap::contains_key`. -/
def containsKey (m : SMap) (k : String) : Bool :=
  m.any (fun p => p.1 = k)

/-- `HashMap::remove`. -/
def erase (m : SMap) (k : String) : SMap :=
  m.filter (fun p => ¬ p.1 = k)

/-- `HashMap::insert` (replaces any existing binding of the key). -/
def insert (m : SMap) (k v : String) : SMap :=
  (k, v) :: erase m k

end SMap

/-! ## Compile-time constants (`src/config.rs` top of file) -/

/-- `pub const RENDEZVOUS_SERVERS: &[&str] = &["hbyx.myds.me"];` -/
def RENDEZVOUS_SERVERS : List String := ["hbyx.myds.me"]

/-- `pub const RENDEZVOUS_PORT: i32 = 2116;` -/
def RENDEZVOUS_PORT : Int := 2116

/-- `const SERIAL: i32 = 3;` -/
def SERIAL : Int := 3

/-- `pub const ENCRYPT_MAX_LEN: usize = 128;` -/
def ENCRYPT_MAX_LEN : Nat := 128

/-! ## Option resolver (`get_or`, `is_option_can_save`,
`Config::get_option`, `Config::set_option`) -/

/-- `fn get_or(a, b, c, k)`: `a.get(k).or(b.get(k)).or(c.get(k)).cloned()`. -/
def get_or (a b c : SMap) (k : String) : Option String :=
  ((SMap.get a k).or (SMap.get b k)).or (SMap.get c k)

/-- `fn is_option_can_save(overwrite, k, defaults, v)`: false when `k` is
present in the overwrite map or the default for `k` equals `v`. -/
def is_option_can_save (overwrite : SMap) (k : String) (defaults : SMap)
    (v : String) : Bool :=
  if overwrite.containsKey k
      || ((SMap.get defaults k).map (fun x => x == v)).getD false then
    false
  else
    true

/-- `Config::get_option(k)` over explicit maps:
`get_or(&OVERWRITE_SETTINGS, &CONFIG2...options, &DEFAULT_SETTINGS, k)
  .unwrap_or_default()`. -/
def Config.get_option (overwrite options defaults : SMap) (k : String) :
    String :=
  (get_or overwrite options defaults k).getD ""

/-- `Config::set_option(k, v)` over explicit maps; returns the new stored
options map (the only part of the state the function mutates besides the
store-to-disk call, which fires only when the map changed). -/
def Config.set_option (overwrite defaults : SMap) (options : SMap)
    (k v : String) : SMap :=
  if ¬ is_option_can_save overwrite k defaults v then
    options
  else if v = "" then
    options.erase k
  else
    options.insert k v

/-! ## Rendezvous-server lookup (`Config::get_rendezvous_server`,
`Config::get_rendezvous_servers`) -/

/-- `str::contains(char)` on the character level (Rust strings are
sequences of `char`s for this predicate). -/
def strContains (s : String) (c : Char) : Bool :=
  s.data.any (fun x => x = c)

/-- Helper for `str::split(',')`: split a character list at commas,
keeping empty segments exactly as Rust's `split` does. -/
def splitCommaAux : List Char → List (List Char)
  | [] => [[]]
  | c :: cs =>
    match splitCommaAux cs with
    | [] => [[]]
    | g :: gs => if c = ',' then [] :: g :: gs else (c :: g) :: gs

/-- `str::split(',')` collected to a list of strings. -/
def splitComma (s : String) : List String :=
  (splitCommaAux s.data).map (fun l => String.mk l)

/-- The global state read by the rendezvous-server lookup: the two
in-memory server overrides, the settings maps, and the `Config2` fields
`rendezvous_server` and `serial`. -/
structure RendezvousState where
  exeRendezvousServer : String
  prodRendezvousServer : String
  overwriteSettings : SMap
  defaultSettings : SMap
  options : SMap
  rendezvousServer : String
  serial : Int

/-- `Config::get_rendezvous_servers()`. -/
def Config.get_rendezvous_servers (st : RendezvousState) : List String :=
  if st.exeRendezvousServer ≠ "" then [st.exeRendezvousServer]
  else
    let s := Config.get_option st.overwriteSettings st.options
      st.defaultSettings "custom-rendezvous-server"
    if s ≠ "" then [s]
    else if st.prodRendezvousServer ≠ "" then [st.prodRendezvousServer]
    else
      let serialObsolute := SERIAL < st.serial
      let ss := (splitComma (Config.get_option st.overwriteSettings
        st.options st.defaultSettings "rendezvous-servers")).filter
          (fun x => strContains x '.')
      if serialObsolute ∧ ss ≠ [] then ss
      else RENDEZVOUS_SERVERS

/-- `Config::get_rendezvous_server()`. -/
def Config.get_rendezvous_server (st : RendezvousState) : String :=
  let r0 := st.exeRendezvousServer
  let r1 := if r0 = "" then
      Config.get_option st.overwriteSettings st.options st.defaultSettings
        "custom-rendezvous-server"
    else r0
  let r2 := if r1 = "" then st.prodRendezvousServer else r1
  let r3 := if r2 = "" then st.rendezvousServer else r2
  let r4 := if r3 = "" then
      (Config.get_rendezvous_servers st).headD ""
    else r3
  if ¬ strContains r4 ':' then r4 ++ ":" ++ toString RENDEZVOUS_PORT else r4

/-- The port-appending step stated by the spec: append the default
rendezvous port when the chosen string has no ':'. -/
def withRendezvousPort (s : String) : String :=
  if ¬ strContains s ':' then s ++ ":" ++ toString RENDEZVOUS_PORT else s

/-- Modelled from the spec (the resolution order the claim states): the
first non-empty candidate among the executable override, the
`custom-rendezvous-server` option, the production server, the stored
`rendezvous_server`, and the first element of the built-in server list,
with the default port appended when the result lacks one. Used only to
compare the spec's words with `Config.get_rendezvous_server`. -/
def specRendezvousServer (st : RendezvousState) : String :=
  let cands := [st.exeRendezvousServer,
    Config.get_option st.overwriteSettings st.options st.defaultSettings
      "custom-rendezvous-server",
    st.prodRendezvousServer,
    st.rendezvousServer,
    RENDEZVOUS_SERVERS.headD ""]
  withRendezvousPort ((cands.filter (fun s => s ≠ "")).headD "")

/-! ## Address book (`Ab::store`, `Ab::load`)

`compress`/`decompress` and `symmetric_crypt` live in this repository but
outside `src/`; `serde_json` is an external crate. Modelled from the spec:
they form an environment of plain functions (`symmetric_crypt` is fallible,
`AbEnv.parse` bundles `String::from_utf8_lossy` with
`serde_json::from_str::<Ab>`). -/

/-- `pub struct AbPeer` (string fields and tags). -/
structure AbPeer where
  id : String
  hash : String
  password : String
  username : String
  hostname : String
  platform : String
  «alias» : String
  tags : List String
deriving DecidableEq

/-- `pub struct AbEntry`. -/
structure AbEntry where
  guid : String
  name : String
  peers : List AbPeer
  tags : List String
  tag_colors : String
deriving DecidableEq

/-- `pub struct Ab`. -/
structure Ab where
  access_token : String
  ab_entries : List AbEntry
deriving DecidableEq

/-- `Ab::default()`. -/
def Ab.default : Ab := ⟨"", []⟩

/-- Modelled from the spec: the collaborators `Ab::store`/`Ab::load` call —
compression, symmetric whole-blob encryption, and JSON decoding of the
decompressed bytes. -/
structure AbEnv where
  compress : String → List Nat
  decompress : List Nat → List Nat
  symmetricCrypt : List Nat → Bool → Option (List Nat)
  parse : List Nat → Option Ab

/-- The address-book file: `none` when absent, otherwise its bytes. -/
abbrev AbFile := Option (List Nat)

/-- `Ab::store(json)` acting on the file state. `File::create` truncates
the file before the size check runs, so a refused oversize store still
leaves the file empty; a failed `symmetric_crypt` also leaves it empty. -/
def Ab.store (env : AbEnv) (file : AbFile) (json : String) : AbFile :=
  let data := env.compress json
  if data.length > 64 * 1024 * 1024 then some []
  else
    match env.symmetricCrypt data true with
    | some enc => some enc
    | none => some []

/-- `Ab::load()` acting on the file state: returns the loaded value and
the file afterwards (`Ab::remove()` deletes the file on any failure). -/
def Ab.load (env : AbEnv) (file : AbFile) : Ab × AbFile :=
  match file with
  | some data =>
    match env.symmetricCrypt data false with
    | some dec =>
      match env.parse (env.decompress dec) with
      | some ab => (ab, some data)
      | none => (Ab.default, none)
    | none => (Ab.default, none)
  | none => (Ab.default, none)

/-- A concrete instance of `AbEnv` for evaluating the address-book
functions: compression always produces an oversize blob, encryption and
decryption are the identity, and only the byte string `[1]` parses (to an
address book with access token `"tok"`). -/
def abOversizeEnv : AbEnv :=
  ⟨fun _ => List.replicate (64 * 1024 * 1024 + 1) 0,
   fun d => d,
   fun d _ => some d,
   fun d => if d = [1] then some ⟨"tok", []⟩ else none⟩

/-! ## Identity record (`Config::store`, `Config::load`)

`encrypt_str_or_original` / `decrypt_str_or_original` live in
`password_security` outside `src/`. Modelled from the spec:
`decrypt` returns `(plain, was_encrypted, needs_rewrite)` and applying it
to a value not produced by `encrypt` returns the input with
`was_encrypted = false`; `gen_id` (platform MAC/hostname code) is an
abstract optional id, the three-attempt loop collapsing because the model
is deterministic. -/

/-- `pub struct Config` (the identity record). -/
structure ConfigRec where
  id : String
  enc_id : String
  password : String
  salt : String
  key_pair : List Nat × List Nat
  key_confirmed : Bool
  keys_confirmed : List (String × Bool)
deriving DecidableEq

/-- Modelled from the spec: the field-level crypt collaborators used by the
identity loader, plus the id generator. -/
structure CryptEnv where
  encrypt : String → String
  decrypt : String → String × Bool × Bool
  gen_id : Option String

/-- `Config::store()` (the record actually written to disk): `password`
re-encrypted, `enc_id` set to the encryption of `id`, `id` blanked. -/
def Config.storeRec (env : CryptEnv) (c : ConfigRec) : ConfigRec :=
  { c with
    password := env.encrypt c.password
    enc_id := env.encrypt c.id
    id := "" }

/-- `Config::load()` from a decoded on-disk record: decrypt `password` and
`enc_id`; adopt the decrypted `enc_id` as `id` when it was really
encrypted, otherwise fall back to a legacy plaintext `id`, otherwise
generate a fresh id. Returns the in-memory record and the re-store flag. -/
def Config.loadRec (env : CryptEnv) (disk : ConfigRec) : ConfigRec × Bool :=
  let p := env.decrypt disk.password
  let config : ConfigRec := { disk with password := p.1 }
  let store := p.2.2
  let d := env.decrypt disk.enc_id
  if d.2.1 then
    ({ config with id := d.1 }, store || d.2.2)
  else if ¬ config.id = "" ∧ config.enc_id = ""
      ∧ (env.decrypt config.id).2.1 = false then
    (config, true)
  else
    match env.gen_id with
    | some newId => ({ config with id := newId }, true)
    | none => (config, store)

/-! ## Trusted devices (`TrustedDevice::outdate`,
`Config::get_trusted_devices`, `Config::set_trusted_devices`,
`Config::add_trusted_device`, `Config::clear_trusted_devices`)

`serde_json` and the field-level crypt are outside `src/`; modelled from
the spec as the environment `TDEnv` (`now` stands for `crate::get_time()`,
milliseconds). JSON strings are byte lists. -/

/-- `pub struct TrustedDevice`. -/
structure TrustedDevice where
  hwid : List Nat
  time : Int
  id : String
  name : String
  platform : String
deriving DecidableEq

/-- `const DAYS_90: i64 = 90 * 24 * 60 * 60 * 1000;` -/
def DAYS_90 : Int := 90 * 24 * 60 * 60 * 1000

/-- `TrustedDevice::outdate()`: `self.time + DAYS_90 < crate::get_time()`. -/
def TrustedDevice.outdate (now : Int) (d : TrustedDevice) : Bool :=
  d.time + DAYS_90 < now

/-- Modelled from the spec: serde-JSON round trip and the field-level crypt
used by the trusted-devices sub-protocol, plus the current time. -/
structure TDEnv where
  toJson : List TrustedDevice → List Nat
  fromJson : List Nat → Option (List TrustedDevice)
  encrypt : List Nat → List Nat
  decrypt : List Nat → List Nat × Bool × Bool
  now : Int

/-- The state the trusted-devices functions touch: the `Config2`
`trusted_devices` field, the `TRUSTED_DEVICES` cache `(list, synced)`,
and a count of `config.store()` disk writes. -/
structure TDState where
  trustedDevices : List Nat
  cache : List TrustedDevice × Bool
  storeCount : Nat
deriving DecidableEq

/-- `Config::set_trusted_devices(devices)`: prune outdated entries,
serialize, refuse when the serialized form exceeds 1 MiB, otherwise
encrypt, store, and mark the cache synchronized. -/
def Config.set_trusted_devices (env : TDEnv) (st : TDState)
    (trusted_devices : List TrustedDevice) : TDState :=
  let td := trusted_devices.filter (fun d => ¬ TrustedDevice.outdate env.now d)
  let devices := env.toJson td
  if devices.length > 1024 * 1024 then st
  else
    let devices := env.encrypt devices
    { st with
      trustedDevices := devices
      storeCount := st.storeCount + 1
      cache := (td, true) }

/-- `Config::get_trusted_devices()`: serve the cache when synchronized;
otherwise decrypt the stored blob, parse, prune outdated entries, write
back when anything changed, and cache the result. -/
def Config.get_trusted_devices (env : TDEnv) (st : TDState) :
    List TrustedDevice × TDState :=
  let devices := st.cache.1
  let synced := st.cache.2
  if synced then (devices, st)
  else
    let d := env.decrypt st.trustedDevices
    if d.2.1 then
      let parsed := (env.fromJson d.1).getD []
      let len := parsed.length
      let devices := parsed.filter (fun x => ¬ TrustedDevice.outdate env.now x)
      let st1 := if d.2.2 || decide (devices.length ≠ len) then
          Config.set_trusted_devices env st devices
        else st
      (devices, { st1 with cache := (devices, true) })
    else
      ([], st)

/-- `Config::add_trusted_device(device)`: drop any entry with the same
hardware id, append the device, and store. -/
def Config.add_trusted_device (env : TDEnv) (st : TDState)
    (device : TrustedDevice) : TDState :=
  let r := Config.get_trusted_devices env st
  let devices := r.1.filter (fun d => ¬ d.hwid = device.hwid)
  Config.set_trusted_devices env r.2 (devices ++ [device])

/-- `Config::clear_trusted_devices()`. -/
def Config.clear_trusted_devices (env : TDEnv) (st : TDState) : TDState :=
  Config.set_trusted_devices env st []

/-- A concrete instance of `TDEnv` for evaluating the trusted-devices
functions: serialization maps each device to one byte, encryption prepends
a byte, decryption always fails (never needed on synchronized caches), and
the clock reads one millisecond past the 90-day horizon. -/
def tdWitnessEnv : TDEnv :=
  ⟨fun l => l.map (fun _ => 48),
   fun _ => none,
   fun x => 7 :: x,
   fun s => (s, false, false),
   7776000001⟩

/-- A concrete instance of `TDEnv` whose serialization always exceeds the
1 MiB bound. -/
def tdOversizeEnv : TDEnv :=
  ⟨fun _ => List.replicate (1024 * 1024 + 1) 48,
   fun _ => none,
   fun x => x,
   fun s => (s, false, false),
   0⟩

/-- A concrete instance of `TDEnv` whose serialization grows with the list
(600000 bytes per device), so that a two-device list is oversize while a
one-device list is not; the clock reads one millisecond past the 90-day
horizon. -/
def tdPruneEnv : TDEnv :=
  ⟨fun l => List.replicate (l.length * 600000) 48,
   fun _ => none,
   fun x => 7 :: x,
   fun s => (s, false, false),
   7776000001⟩

/-! ## Permanent password (`Config::set_permanent_password`) -/

/-- The state `Config::set_permanent_password` touches: `HARD_SETTINGS`,
the identity record's `password` field, a count of `CONFIG` disk writes,
and the trusted-devices state (cleared on a real password change). -/
structure PPState where
  hardSettings : SMap
  password : String
  configStoreCount : Nat
  td : TDState
deriving DecidableEq

/-- `Config::set_permanent_password(password)`: a no-op when the argument
equals the built-in `HARD_SETTINGS["password"]` or the stored password;
otherwise store the new password and clear the trusted devices. -/
def Config.set_permanent_password (env : TDEnv) (st : PPState)
    (password : String) : PPState :=
  if ((SMap.get st.hardSettings "password").map
      (fun v => v == password)).getD false then st
  else if password = st.password then st
  else
    let st1 := { st with
      password := password
      configStoreCount := st.configStoreCount + 1 }
    { st1 with td := Config.clear_trusted_devices env st1.td }

/-! ## Peer file naming (`PeerConfig::path`,
`PeerConfig::get_vec_id_modified_time_path`)

Peer ids live in file stems, so they are modelled as UTF-8 byte lists.
`base64::encode(id, base64::Variant::Original)` (standard alphabet with
padding) is an external crate; modelled from the spec as RFC 4648 base64
over bytes. `String::from_utf8_lossy` is the identity embedding on the
valid UTF-8 bytes arising here. -/

/-- Standard base64 alphabet: sextet to ASCII byte. -/
def b64Char (n : Nat) : Nat :=
  if n < 26 then 65 + n
  else if n < 52 then 97 + (n - 26)
  else if n < 62 then 48 + (n - 52)
  else if n = 62 then 43
  else 47

/-- Standard base64 alphabet: ASCII byte back to sextet. -/
def b64Inv (c : Nat) : Option Nat :=
  if 65 ≤ c ∧ c ≤ 90 then some (c - 65)
  else if 97 ≤ c ∧ c ≤ 122 then some (26 + (c - 97))
  else if 48 ≤ c ∧ c ≤ 57 then some (52 + (c - 48))
  else if c = 43 then some 62
  else if c = 47 then some 63
  else none

/-- RFC 4648 base64 encoding of a byte list ('=' is byte 61). -/
def encode64 : List Nat → List Nat
  | [] => []
  | [a] => [b64Char (a / 4), b64Char (a % 4 * 16), 61, 61]
  | [a, b] =>
    [b64Char (a / 4), b64Char (a % 4 * 16 + b / 16), b64Char (b % 16 * 4), 61]
  | a :: b :: c :: rest =>
    b64Char (a / 4) :: b64Char (a % 4 * 16 + b / 16)
      :: b64Char (b % 16 * 4 + c / 64) :: b64Char (c % 64) :: encode64 rest

/-- RFC 4648 base64 decoding of a byte list; `none` on malformed input. -/
def decode64 : List Nat → Option (List Nat)
  | [] => some []
  | c1 :: c2 :: c3 :: c4 :: rest =>
    match b64Inv c1, b64Inv c2 with
    | some s1, some s2 =>
      if c3 = 61 then
        if c4 = 61 ∧ rest = [] then some [s1 * 4 + s2 / 16] else none
      else
        match b64Inv c3 with
        | some s3 =>
          if c4 = 61 then
            if rest = [] then some [s1 * 4 + s2 / 16, s2 % 16 * 16 + s3 / 4]
            else none
          else
            match b64Inv c4 with
            | some s4 =>
              (decode64 rest).map
                (fun r => (s1 * 4 + s2 / 16) :: (s2 % 16 * 16 + s3 / 4)
                  :: (s3 % 4 * 64 + s4) :: r)
            | none => none
        | none => none
    | _, _ => none
  | _ => none

/-- The byte-level content of the regex class `[<>:/\\|\?\*]` in
`PeerConfig::path`. -/
def forbiddenByte (b : Nat) : Bool :=
  b = 60 || b = 62 || b = 58 || b = 47 || b = 92 || b = 124 || b = 63 || b = 42

/-- The bytes of `"base64_"`. -/
def base64Prefix : List Nat := [98, 97, 115, 101, 54, 52, 95]

/-- The file stem chosen by `PeerConfig::path(id)`: ids matching the
forbidden-character regex are stored as `base64_` plus their base64
encoding, all others verbatim. -/
def PeerConfig.pathStem (id : List Nat) : List Nat :=
  if id.any forbiddenByte then base64Prefix ++ encode64 id
  else id

/-- The id recovered from a file stem by
`PeerConfig::get_vec_id_modified_time_path`: stems starting with
`base64_` (other than the bare prefix, `id.len() != 7`) are base64-decoded
(`unwrap_or_default`, hence empty on decode failure), all others are taken
verbatim. -/
def PeerConfig.recoverId (stem : List Nat) : List Nat :=
  if base64Prefix.isPrefixOf stem ∧ stem.length ≠ 7 then
    (decode64 (stem.drop 7)).getD []
  else stem

/-! ## Tolerant numeric decoders
(`PeerConfig::deserialize_custom_image_quality`,
`PeerConfig::deserialize_trackpad_speed`)

The successfully parsed raw value is the argument; the field's default
(`default_custom_image_quality()` / `default_trackpad_speed()`, both
driven by `UserDefaultConfig`) is passed explicitly. -/

/-- `PeerConfig::deserialize_custom_image_quality`: keep `v` only when it
is a single element in `[10, 0xFFF]`.  (`v[0]` is evaluated only under
`v.len() == 1`, hence the `headD`.) -/
def PeerConfig.deserialize_custom_image_quality (dflt : List Int)
    (v : List Int) : List Int :=
  if v.length = 1 ∧ 10 ≤ v.headD 0 ∧ v.headD 0 ≤ 0xFFF then v else dflt

/-- `PeerConfig::deserialize_trackpad_speed`: keep `v` only when it lies
in `[10, 1000]`. -/
def PeerConfig.deserialize_trackpad_speed (dflt : Int) (v : Int) : Int :=
  if 10 ≤ v ∧ v ≤ 1000 then v else dflt

/-! ## Helper lemmas on the map model -/

theorem SMap.get_insert_self (m : SMap) (k v : String) :
    SMap.get (SMap.insert m k v) k = some v := by
  simp [SMap.get, SMap.insert, List.find?]

theorem SMap.get_erase_self (m : SMap) (k : String) :
    SMap.get (SMap.erase m k) k = none := by
  induction m with
  | nil => rfl
  | cons p t ih =>
    by_cases h : p.1 = k <;>
      simp_all [SMap.get, SMap.erase, List.filter_cons, List.find?_cons]

theorem SMap.containsKey_eq_false_iff (m : SMap) (k : String) :
    SMap.containsKey m k = false ↔ SMap.get m k = none := by
  induction m with
  | nil => simp [SMap.containsKey, SMap.get]
  | cons p t ih =>
    by_cases h : p.1 = k <;>
      simp_all [SMap.containsKey, SMap.get, List.find?_cons, List.any_cons]

theorem is_option_can_save_eq_true (overwrite : SMap) (k : String)
    (defaults : SMap) (v : String) :
    is_option_can_save overwrite k defaults v = true ↔
      overwrite.containsKey k = false ∧
        ((SMap.get defaults k).map (fun x => x == v)).getD false = false := by
  by_cases hc : (overwrite.containsKey k
      || ((SMap.get defaults k).map (fun x => x == v)).getD false) = true
  · simp only [is_option_can_save, if_pos hc]
    rw [Bool.or_eq_true] at hc
    constructor
    · intro h; exact absurd h (by simp)
    · intro ⟨h1, h2⟩
      rcases hc with h | h
      · rw [h1] at h; exact absurd h (by simp)
      · rw [h2] at h; exact absurd h (by simp)
  · simp only [is_option_can_save, if_neg hc]
    rw [Bool.or_eq_true] at hc
    push_neg at hc
    simp only [Bool.not_eq_true] at hc
    simp [hc.1, hc.2]

/-! ## C2: `get_option` resolves with the fixed precedence
OVERWRITE > stored > DEFAULT > "" -/

/-- C2: `Config::get_option(k)` returns `OVERWRITE_SETTINGS[k]` when
present, otherwise the stored options entry, otherwise
`DEFAULT_SETTINGS[k]`, otherwise the empty string; in particular, when all
three maps bind `k`, the OVERWRITE value wins. -/
theorem get_option_precedence (overwrite options defaults : SMap)
    (k : String) :
    (∀ v, SMap.get overwrite k = some v →
      Config.get_option overwrite options defaults k = v) ∧
    (SMap.get overwrite k = none → ∀ v, SMap.get options k = some v →
      Config.get_option overwrite options defaults k = v) ∧
    (SMap.get overwrite k = none → SMap.get options k = none →
      ∀ v, SMap.get defaults k = some v →
        Config.get_option overwrite options defaults k = v) ∧
    (SMap.get overwrite k = none → SMap.get options k = none →
      SMap.get defaults k = none →
        Config.get_option overwrite options defaults k = "") := by
  refine ⟨?_, ?_, ?_, ?_⟩
  · intro v h; simp [Config.get_option, get_or, h]
  · intro h1 v h2; simp [Config.get_option, get_or, h1, h2]
  · intro h1 h2 v h3; simp [Config.get_option, get_or, h1, h2, h3]
  · intro h1 h2 h3; simp [Config.get_option, get_or, h1, h2, h3]

/-- C2 witness: the spec's seed `DEFAULT["b"]="a"`, `stored["b"]="b"`,
`OVERWRITE["b"]="c"` yields `"c"`, and each lower layer is reached when the
layers above are silent. -/
theorem get_option_precedence_witness :
    Config.get_option [("b", "c")] [("b", "b")] [("b", "a")] "b" = "c" ∧
    Config.get_option [] [("b", "b")] [("b", "a")] "b" = "b" ∧
    Config.get_option [] [] [("b", "a")] "b" = "a" ∧
    Config.get_option [] [] [] "b" = "" :=
  ⟨(get_option_precedence [("b", "c")] [("b", "b")] [("b", "a")] "b").1
      "c" (by decide),
   (get_option_precedence [] [("b", "b")] [("b", "a")] "b").2.1
      (by decide) "b" (by decide),
   (get_option_precedence [] [] [("b", "a")] "b").2.2.1
      (by decide) (by decide) "a" (by decide),
   (get_option_precedence [] [] [] "b").2.2.2
      (by decide) (by decide) (by decide)⟩

/-! ## C1: `set_option` / `get_option` round trip

The claim fails for an empty value: when `v = ""` and `DEFAULT_SETTINGS`
binds `k` to a non-empty value, `is_option_can_save` still returns true
(the default differs from `""`), the stored key is removed, and
`get_option(k)` then falls back to the default — it returns neither `v`
nor the value from before the call. -/

/-- C1 counterexample: with no overwrite, `DEFAULT["x"]="d"`,
`stored["x"]="s"`, calling `set_option("x", "")` passes the
`is_option_can_save` gate, yet afterwards `get_option("x")` returns `"d"`,
which is neither `""` (the written value) nor `"s"` (the value before the
call, which was `"s"`). -/
theorem set_option_empty_value_counterexample :
    is_option_can_save [] "x" [("x", "d")] "" = true ∧
    Config.get_option [] [("x", "s")] [("x", "d")] "x" = "s" ∧
    Config.get_option []
      (Config.set_option [] [("x", "d")] [("x", "s")] "x" "")
      [("x", "d")] "x" = "d" ∧
    ("d" ≠ "" ∧ "d" ≠ "s") := by
  refine ⟨by decide, by decide, by decide, by decide, by decide⟩

/-- C1 amended: after `set_option(k, v)` — when `is_option_can_save`
returned false the stored map (hence `get_option(k)`) is unchanged; when it
returned true and `v` is non-empty, `get_option(k)` returns `v`; when it
returned true and `v` is empty, the stored key is removed and
`get_option(k)` returns `DEFAULT_SETTINGS[k]` when present and `""`
otherwise. -/
theorem set_option_get_option (overwrite defaults options : SMap)
    (k v : String) :
    (is_option_can_save overwrite k defaults v = false →
      Config.set_option overwrite defaults options k v = options) ∧
    (is_option_can_save overwrite k defaults v = true → v ≠ "" →
      Config.get_option overwrite
        (Config.set_option overwrite defaults options k v) defaults k = v) ∧
    (is_option_can_save overwrite k defaults v = true → v = "" →
      SMap.get (Config.set_option overwrite defaults options k v) k = none ∧
      Config.get_option overwrite
        (Config.set_option overwrite defaults options k v) defaults k
        = (SMap.get defaults k).getD "") := by
  refine ⟨?_, ?_, ?_⟩
  · intro h
    simp [Config.set_option, h]
  · intro h hv
    have hover : SMap.get overwrite k = none :=
      (SMap.containsKey_eq_false_iff overwrite k).mp
        ((is_option_can_save_eq_true overwrite k defaults v).mp h).1
    have hset : Config.set_option overwrite defaults options k v
        = SMap.insert options k v := by
      simp [Config.set_option, h, hv]
    rw [hset]
    simp [Config.get_option, get_or, hover, SMap.get_insert_self]
  · intro h hv
    subst hv
    have hover : SMap.get overwrite k = none :=
      (SMap.containsKey_eq_false_iff overwrite k).mp
        ((is_option_can_save_eq_true overwrite k defaults "").mp h).1
    have hset : Config.set_option overwrite defaults options k ""
        = SMap.erase options k := by
      simp [Config.set_option, h]
    rw [hset]
    refine ⟨SMap.get_erase_self options k, ?_⟩
    simp [Config.get_option, get_or, hover, SMap.get_erase_self]

/-- C1 amended witness: all three branches at concrete inputs — a
suppressed write under an overwrite, a persisted non-empty write, and an
empty write removing the key and exposing the default. -/
theorem set_option_get_option_witness :
    Config.set_option [("b", "c")] [("b", "a")] [("b", "b")] "b" "x"
      = [("b", "b")] ∧
    Config.get_option []
      (Config.set_option [] [("x", "d")] [] "x" "s") [("x", "d")] "x"
      = "s" ∧
    SMap.get (Config.set_option [] [("x", "d")] [("x", "s")] "x" "") "x"
      = none ∧
    Config.get_option []
      (Config.set_option [] [("x", "d")] [("x", "s")] "x" "")
      [("x", "d")] "x" = (SMap.get [("x", "d")] "x").getD "" :=
  ⟨(set_option_get_option [("b", "c")] [("b", "a")] [("b", "b")] "b" "x").1
      (by decide),
   (set_option_get_option [] [("x", "d")] [] "x" "s").2.1
      (by decide) (by decide),
   ((set_option_get_option [] [("x", "d")] [("x", "s")] "x" "").2.2
      (by decide) (by decide)).1,
   ((set_option_get_option [] [("x", "d")] [("x", "s")] "x" "").2.2
      (by decide) (by decide)).2⟩

/-! ## C9: rendezvous-server lookup order

The first four candidates are as the claim states, but the final fallback
is `Config::get_rendezvous_servers()`, which — when the stored serial
exceeds the compiled-in `SERIAL` and the `rendezvous-servers` option
parses to a non-empty dotted list — returns that list rather than the
built-in one. -/

/-- C9 counterexample: with every override empty, serial 4 (> SERIAL = 3)
and `options["rendezvous-servers"] = "a.b,c.d"`, the code returns
`"a.b:2116"`, while the claim's five-candidate resolution (formalised as
`specRendezvousServer`) yields `"hbyx.myds.me:2116"`. -/
theorem get_rendezvous_server_serial_counterexample :
    Config.get_rendezvous_server
      ⟨"", "", [], [], [("rendezvous-servers", "a.b,c.d")], "", 4⟩
      = "a.b:2116" ∧
    specRendezvousServer
      ⟨"", "", [], [], [("rendezvous-servers", "a.b,c.d")], "", 4⟩
      = "hbyx.myds.me:2116" ∧
    ("a.b:2116" : String) ≠ "hbyx.myds.me:2116" :=
  ⟨by decide, by decide, by decide⟩

/-- C9 amended: `Config::get_rendezvous_server` returns the first
non-empty candidate among the executable override, the
`custom-rendezvous-server` option, the production server, and the stored
`rendezvous_server`; when all four are empty it falls back to the first
element of `Config::get_rendezvous_servers()`, which equals the built-in
list's first element `"hbyx.myds.me"` whenever the stored serial does not
exceed the compiled-in `SERIAL`. The default rendezvous port is appended
whenever the chosen string contains no ':'. -/
theorem get_rendezvous_server_order (st : RendezvousState) :
    (st.exeRendezvousServer ≠ "" →
      Config.get_rendezvous_server st
        = withRendezvousPort st.exeRendezvousServer) ∧
    (st.exeRendezvousServer = "" →
      Config.get_option st.overwriteSettings st.options st.defaultSettings
          "custom-rendezvous-server" ≠ "" →
      Config.get_rendezvous_server st
        = withRendezvousPort (Config.get_option st.overwriteSettings
            st.options st.defaultSettings "custom-rendezvous-server")) ∧
    (st.exeRendezvousServer = "" →
      Config.get_option st.overwriteSettings st.options st.defaultSettings
          "custom-rendezvous-server" = "" →
      st.prodRendezvousServer ≠ "" →
      Config.get_rendezvous_server st
        = withRendezvousPort st.prodRendezvousServer) ∧
    (st.exeRendezvousServer = "" →
      Config.get_option st.overwriteSettings st.options st.defaultSettings
          "custom-rendezvous-server" = "" →
      st.prodRendezvousServer = "" →
      st.rendezvousServer ≠ "" →
      Config.get_rendezvous_server st
        = withRendezvousPort st.rendezvousServer) ∧
    (st.exeRendezvousServer = "" →
      Config.get_option st.overwriteSettings st.options st.defaultSettings
          "custom-rendezvous-server" = "" →
      st.prodRendezvousServer = "" →
      st.rendezvousServer = "" →
      Config.get_rendezvous_server st
        = withRendezvousPort
            ((Config.get_rendezvous_servers st).headD "")) ∧
    (st.exeRendezvousServer = "" →
      Config.get_option st.overwriteSettings st.options st.defaultSettings
          "custom-rendezvous-server" = "" →
      st.prodRendezvousServer = "" →
      st.rendezvousServer = "" →
      st.serial ≤ SERIAL →
      Config.get_rendezvous_server st
        = withRendezvousPort "hbyx.myds.me") := by
  refine ⟨?_, ?_, ?_, ?_, ?_, ?_⟩
  · intro h1
    simp [Config.get_rendezvous_server, withRendezvousPort, h1]
  · intro h1 h2
    simp [Config.get_rendezvous_server, withRendezvousPort, h1, h2]
  · intro h1 h2 h3
    simp [Config.get_rendezvous_server, withRendezvousPort, h1, h2, h3]
  · intro h1 h2 h3 h4
    simp [Config.get_rendezvous_server, withRendezvousPort, h1, h2, h3, h4]
  · intro h1 h2 h3 h4
    simp [Config.get_rendezvous_server, withRendezvousPort, h1, h2, h3, h4]
  · intro h1 h2 h3 h4 h5
    have hns : ¬ (SERIAL < st.serial) := not_lt.mpr h5
    have hsrv : Config.get_rendezvous_servers st = RENDEZVOUS_SERVERS := by
      simp [Config.get_rendezvous_servers, h1, h2, h3, hns]
    simp [Config.get_rendezvous_server, withRendezvousPort, h1, h2, h3, h4,
      hsrv, RENDEZVOUS_SERVERS]

/-- C9 amended witness: each resolution level at a concrete state, plus
the built-in fallback with an up-to-date serial. -/
theorem get_rendezvous_server_order_witness :
    Config.get_rendezvous_server ⟨"ex", "", [], [], [], "", 3⟩
      = withRendezvousPort "ex" ∧
    Config.get_rendezvous_server
        ⟨"", "", [], [], [("custom-rendezvous-server", "cu")], "", 3⟩
      = withRendezvousPort "cu" ∧
    Config.get_rendezvous_server ⟨"", "pr", [], [], [], "", 3⟩
      = withRendezvousPort "pr" ∧
    Config.get_rendezvous_server ⟨"", "", [], [], [], "rz", 3⟩
      = withRendezvousPort "rz" ∧
    Config.get_rendezvous_server ⟨"", "", [], [], [], "", 3⟩
      = withRendezvousPort
          ((Config.get_rendezvous_servers ⟨"", "", [], [], [], "", 3⟩).headD
            "") ∧
    Config.get_rendezvous_server ⟨"", "", [], [], [], "", 3⟩
      = withRendezvousPort "hbyx.myds.me" :=
  ⟨(get_rendezvous_server_order ⟨"ex", "", [], [], [], "", 3⟩).1 (by decide),
   (get_rendezvous_server_order
      ⟨"", "", [], [], [("custom-rendezvous-server", "cu")], "", 3⟩).2.1
      (by decide) (by decide),
   (get_rendezvous_server_order ⟨"", "pr", [], [], [], "", 3⟩).2.2.1
      (by decide) (by decide) (by decide),
   (get_rendezvous_server_order ⟨"", "", [], [], [], "rz", 3⟩).2.2.2.1
      (by decide) (by decide) (by decide) (by decide),
   (get_rendezvous_server_order ⟨"", "", [], [], [], "", 3⟩).2.2.2.2.1
      (by decide) (by decide) (by decide) (by decide),
   (get_rendezvous_server_order ⟨"", "", [], [], [], "", 3⟩).2.2.2.2.2
      (by decide) (by decide) (by decide) (by decide) (by decide)⟩

/-! ## C3: oversize address-book store

`Ab::store` calls `File::create` — which truncates the file — *before*
compressing and checking the 64 MiB bound, so a refused oversize store
still destroys the stored blob: the next `Ab::load` fails, deletes the
file, and returns the default address book. -/

/-- C3 counterexample: with a prior file that loads to the address book
`⟨"tok", []⟩` and a JSON whose compressed form has `64·2²⁰ + 1` bytes,
`Ab::store` leaves an empty (truncated) file and the subsequent
`Ab::load` returns the default address book — not the previous one — and
deletes the file. -/
theorem ab_store_oversize_counterexample :
    (abOversizeEnv.compress "{}").length > 64 * 1024 * 1024 ∧
    (Ab.load abOversizeEnv (some [1])).1 = (⟨"tok", []⟩ : Ab) ∧
    Ab.store abOversizeEnv (some [1]) "{}" = some [] ∧
    Ab.load abOversizeEnv (Ab.store abOversizeEnv (some [1]) "{}")
      = (Ab.default, none) ∧
    Ab.default ≠ (⟨"tok", []⟩ : Ab) := by
  have hsize : (abOversizeEnv.compress "{}").length > 64 * 1024 * 1024 := by
    simp only [abOversizeEnv]
    rw [List.length_replicate]
    omega
  have hstore : Ab.store abOversizeEnv (some [1]) "{}" = some [] := by
    simp only [Ab.store, if_pos hsize]
  refine ⟨hsize, by decide, hstore, ?_, by decide⟩
  rw [hstore]
  decide

/-- C3 amended: for every address-book JSON whose compressed form exceeds
64 MiB, `Ab::store(json)` does not write the blob and raises no error, but
it truncates the file on open; provided an empty blob never decrypts and
parses to an address book (true of the real collaborators), a subsequent
`Ab::load()` then returns the *default* address book and deletes the file,
rather than the previously stored one. -/
theorem ab_store_oversize (env : AbEnv) (file : AbFile) (json : String)
    (hsize : (env.compress json).length > 64 * 1024 * 1024)
    (hempty : ∀ r, env.symmetricCrypt [] false = some r →
      env.parse (env.decompress r) = none) :
    Ab.store env file json = some [] ∧
    Ab.load env (Ab.store env file json) = (Ab.default, none) := by
  have hstore : Ab.store env file json = some [] := by
    simp only [Ab.store, if_pos hsize]
  refine ⟨hstore, ?_⟩
  rw [hstore]
  simp only [Ab.load]
  cases hc : env.symmetricCrypt [] false with
  | none => rfl
  | some r =>
    dsimp only
    rw [hempty r hc]

/-- C3 amended witness: the amended statement evaluated at the concrete
environment `abOversizeEnv`. -/
theorem ab_store_oversize_witness :
    Ab.store abOversizeEnv (some [1]) "[]" = some [] ∧
    Ab.load abOversizeEnv (Ab.store abOversizeEnv (some [1]) "[]")
      = (Ab.default, none) :=
  ab_store_oversize abOversizeEnv (some [1]) "[]"
    (by
      simp only [abOversizeEnv]
      rw [List.length_replicate]
      omega)
    (by
      intro r hr
      simp only [abOversizeEnv] at hr ⊢
      cases hr
      decide)

/-! ## C4: identity stored with blank `id` and encrypted `enc_id` -/

/-- C4: `Config::store` writes a record whose `id` field is empty and whose
`enc_id` field is the encryption of the in-memory `id`; provided decryption
inverts encryption (the spec's contract for `decrypt_str_or_original` on
ciphertext of the current version), a subsequent `Config::load` recovers
the plaintext `id` from `enc_id`. -/
theorem config_store_load_id (env : CryptEnv) (c : ConfigRec)
    (h : env.decrypt (env.encrypt c.id) = (c.id, true, false)) :
    (Config.storeRec env c).id = "" ∧
    (Config.storeRec env c).enc_id = env.encrypt c.id ∧
    (Config.loadRec env (Config.storeRec env c)).1.id = c.id := by
  refine ⟨rfl, rfl, ?_⟩
  simp [Config.loadRec, Config.storeRec, h]

/-- C4 witness: a concrete reversible cipher (prepend `'E'`) and a concrete
identity record. -/
theorem config_store_load_id_witness :
    (Config.storeRec
      ⟨fun s => String.mk ('E' :: s.data),
       fun s => match s.data with
         | 'E' :: rest => (String.mk rest, true, false)
         | _ => (s, false, false),
       none⟩
      ⟨"myid", "", "pw", "", ([], []), false, []⟩).id = "" ∧
    (Config.storeRec
      ⟨fun s => String.mk ('E' :: s.data),
       fun s => match s.data with
         | 'E' :: rest => (String.mk rest, true, false)
         | _ => (s, false, false),
       none⟩
      ⟨"myid", "", "pw", "", ([], []), false, []⟩).enc_id
      = String.mk ('E' :: "myid".data) ∧
    (Config.loadRec
      ⟨fun s => String.mk ('E' :: s.data),
       fun s => match s.data with
         | 'E' :: rest => (String.mk rest, true, false)
         | _ => (s, false, false),
       none⟩
      (Config.storeRec
        ⟨fun s => String.mk ('E' :: s.data),
         fun s => match s.data with
           | 'E' :: rest => (String.mk rest, true, false)
           | _ => (s, false, false),
         none⟩
        ⟨"myid", "", "pw", "", ([], []), false, []⟩)).1.id = "myid" :=
  config_store_load_id
    ⟨fun s => String.mk ('E' :: s.data),
     fun s => match s.data with
       | 'E' :: rest => (String.mk rest, true, false)
       | _ => (s, false, false),
     none⟩
    ⟨"myid", "", "pw", "", ([], []), false, []⟩
    (by decide)

/-! ## C5: an outdated device added is pruned and the pruned list is
written back -/

/-- C5: adding a trusted device whose timestamp lies more than 90 days in
the past (provided the serialized pruned list fits the 1 MiB bound, as it
does in every reachable state): the next `get_trusted_devices()` returns a
list not containing that device, the `trusted_devices` field of the
network record now holds the encryption of the serialized pruned list, and
a store to disk happened. -/
theorem add_trusted_device_outdated (env : TDEnv) (st : TDState)
    (d : TrustedDevice)
    (hout : d.time + DAYS_90 < env.now)
    (hsize : (env.toJson ((((Config.get_trusted_devices env st).1.filter
        (fun x => ¬ x.hwid = d.hwid)) ++ [d]).filter
        (fun x => ¬ TrustedDevice.outdate env.now x))).length
        ≤ 1024 * 1024) :
    d ∉ (Config.get_trusted_devices env
        (Config.add_trusted_device env st d)).1 ∧
    (Config.add_trusted_device env st d).trustedDevices
      = env.encrypt (env.toJson (Config.get_trusted_devices env
          (Config.add_trusted_device env st d)).1) ∧
    (Config.add_trusted_device env st d).storeCount
      = (Config.get_trusted_devices env st).2.storeCount + 1 := by
  have hnot : ¬ ((env.toJson ((((Config.get_trusted_devices env st).1.filter
      (fun x => ¬ x.hwid = d.hwid)) ++ [d]).filter
      (fun x => ¬ TrustedDevice.outdate env.now x))).length
      > 1024 * 1024) := by omega
  have hadd : Config.add_trusted_device env st d
      = { (Config.get_trusted_devices env st).2 with
          trustedDevices := env.encrypt (env.toJson
            ((((Config.get_trusted_devices env st).1.filter
              (fun x => ¬ x.hwid = d.hwid)) ++ [d]).filter
              (fun x => ¬ TrustedDevice.outdate env.now x)))
          storeCount := (Config.get_trusted_devices env st).2.storeCount + 1
          cache := (((((Config.get_trusted_devices env st).1.filter
              (fun x => ¬ x.hwid = d.hwid)) ++ [d]).filter
              (fun x => ¬ TrustedDevice.outdate env.now x)), true) } := by
    simp only [Config.add_trusted_device, Config.set_trusted_devices]
    rw [if_neg hnot]
  have hget : Config.get_trusted_devices env
      (Config.add_trusted_device env st d)
      = (((((Config.get_trusted_devices env st).1.filter
          (fun x => ¬ x.hwid = d.hwid)) ++ [d]).filter
          (fun x => ¬ TrustedDevice.outdate env.now x)),
         Config.add_trusted_device env st d) := by
    rw [hadd]
    simp [Config.get_trusted_devices]
  refine ⟨?_, ?_, ?_⟩
  · rw [hget]
    intro hmem
    rw [List.mem_filter] at hmem
    have h2 := hmem.2
    simp only [TrustedDevice.outdate] at h2
    simp at h2
    exact absurd hout (not_lt.mpr h2)
  · rw [hget, hadd]
  · rw [hadd]

/-- C5 witness: starting from a synchronized empty state and adding a
device stamped 91 days ago, the next read yields the empty list and the
record holds the encrypted empty serialization. -/
theorem add_trusted_device_outdated_witness :
    ((0 : Int) + DAYS_90 < tdWitnessEnv.now) ∧
    (⟨[1], 0, "", "", ""⟩ : TrustedDevice) ∉
      (Config.get_trusted_devices tdWitnessEnv
        (Config.add_trusted_device tdWitnessEnv ⟨[], ([], true), 0⟩
          ⟨[1], 0, "", "", ""⟩)).1 ∧
    (Config.add_trusted_device tdWitnessEnv ⟨[], ([], true), 0⟩
        ⟨[1], 0, "", "", ""⟩).trustedDevices
      = tdWitnessEnv.encrypt (tdWitnessEnv.toJson
          (Config.get_trusted_devices tdWitnessEnv
            (Config.add_trusted_device tdWitnessEnv ⟨[], ([], true), 0⟩
              ⟨[1], 0, "", "", ""⟩)).1) ∧
    (Config.add_trusted_device tdWitnessEnv ⟨[], ([], true), 0⟩
        ⟨[1], 0, "", "", ""⟩).storeCount
      = (Config.get_trusted_devices tdWitnessEnv
          ⟨[], ([], true), 0⟩).2.storeCount + 1 :=
  ⟨by decide,
   (add_trusted_device_outdated tdWitnessEnv ⟨[], ([], true), 0⟩
      ⟨[1], 0, "", "", ""⟩ (by decide) (by decide)).1,
   (add_trusted_device_outdated tdWitnessEnv ⟨[], ([], true), 0⟩
      ⟨[1], 0, "", "", ""⟩ (by decide) (by decide)).2.1,
   (add_trusted_device_outdated tdWitnessEnv ⟨[], ([], true), 0⟩
      ⟨[1], 0, "", "", ""⟩ (by decide) (by decide)).2.2⟩

/-! ## C6: oversize trusted-devices writes are refused

`set_trusted_devices` prunes outdated entries *before* serializing and
checking the 1 MiB bound, so the bound applies to the pruned list, not to
the given one: a list whose serialization is oversize only before pruning
is pruned, passes the check, and is written. -/

/-- C6 counterexample: under a serialization of 600000 bytes per device,
the two-device list (one entry stamped 91 days ago, one fresh) serializes
to 1200000 bytes — over the 1 MiB bound the claim quantifies by — yet
`set_trusted_devices` prunes the outdated entry, passes the size check on
the remaining one-device list, and performs the write: the store counter,
the record field, and the cache all change. -/
theorem set_trusted_devices_prune_counterexample :
    (tdPruneEnv.toJson
        [⟨[1], 0, "", "", ""⟩, ⟨[2], 1, "", "", ""⟩]).length
      > 1024 * 1024 ∧
    (Config.set_trusted_devices tdPruneEnv ⟨[], ([], true), 0⟩
        [⟨[1], 0, "", "", ""⟩, ⟨[2], 1, "", "", ""⟩]).storeCount = 1 ∧
    (Config.set_trusted_devices tdPruneEnv ⟨[], ([], true), 0⟩
        [⟨[1], 0, "", "", ""⟩, ⟨[2], 1, "", "", ""⟩]).cache
      = ([⟨[2], 1, "", "", ""⟩], true) ∧
    Config.set_trusted_devices tdPruneEnv ⟨[], ([], true), 0⟩
        [⟨[1], 0, "", "", ""⟩, ⟨[2], 1, "", "", ""⟩]
      ≠ (⟨[], ([], true), 0⟩ : TDState) := by
  have hfilter : ([⟨[1], 0, "", "", ""⟩, ⟨[2], 1, "", "", ""⟩]
      : List TrustedDevice).filter
        (fun d => ¬ TrustedDevice.outdate tdPruneEnv.now d)
      = [⟨[2], 1, "", "", ""⟩] := by decide
  have hbig : (tdPruneEnv.toJson
      [⟨[1], 0, "", "", ""⟩, ⟨[2], 1, "", "", ""⟩]).length
      > 1024 * 1024 := by
    show (List.replicate (2 * 600000) 48).length > 1024 * 1024
    rw [List.length_replicate]
    omega
  have hsmall : ¬ ((tdPruneEnv.toJson
      ([⟨[2], 1, "", "", ""⟩] : List TrustedDevice)).length
      > 1024 * 1024) := by
    show ¬ ((List.replicate (1 * 600000) 48).length > 1024 * 1024)
    rw [List.length_replicate]
    omega
  have hset : Config.set_trusted_devices tdPruneEnv ⟨[], ([], true), 0⟩
      [⟨[1], 0, "", "", ""⟩, ⟨[2], 1, "", "", ""⟩]
      = { trustedDevices := tdPruneEnv.encrypt (tdPruneEnv.toJson
            [⟨[2], 1, "", "", ""⟩])
          cache := ([⟨[2], 1, "", "", ""⟩], true)
          storeCount := 1 } := by
    simp only [Config.set_trusted_devices, hfilter]
    rw [if_neg hsmall]
  refine ⟨hbig, ?_, ?_, ?_⟩
  · rw [hset]
  · rw [hset]
  · rw [hset]
    intro he
    have := congrArg TDState.storeCount he
    simp at this

/-- C6 amended: when the serialized *pruned* device list exceeds 1 MiB,
`set_trusted_devices` changes nothing — record field, disk-write count and
cache are all left as they were — so a subsequent read returns the prior
list. -/
theorem set_trusted_devices_oversize (env : TDEnv) (st : TDState)
    (l : List TrustedDevice)
    (hsize : (env.toJson (l.filter
        (fun d => ¬ TrustedDevice.outdate env.now d))).length
        > 1024 * 1024) :
    Config.set_trusted_devices env st l = st ∧
    Config.get_trusted_devices env (Config.set_trusted_devices env st l)
      = Config.get_trusted_devices env st := by
  have h1 : Config.set_trusted_devices env st l = st := by
    simp only [Config.set_trusted_devices]
    rw [if_pos hsize]
  exact ⟨h1, by rw [h1]⟩

/-- C6 amended witness: a serialization that always exceeds the bound
leaves a concrete state untouched. -/
theorem set_trusted_devices_oversize_witness :
    Config.set_trusted_devices tdOversizeEnv ⟨[5], ([], false), 3⟩ []
      = ⟨[5], ([], false), 3⟩ ∧
    Config.get_trusted_devices tdOversizeEnv
      (Config.set_trusted_devices tdOversizeEnv ⟨[5], ([], false), 3⟩ [])
      = Config.get_trusted_devices tdOversizeEnv ⟨[5], ([], false), 3⟩ :=
  set_trusted_devices_oversize tdOversizeEnv ⟨[5], ([], false), 3⟩ []
    (by
      show (List.replicate (1024 * 1024 + 1) 48).length > 1024 * 1024
      rw [List.length_replicate]
      omega)

/-! ## C10: setting the built-in hard password is a complete no-op -/

/-- C10: for a string equal to the built-in `HARD_SETTINGS["password"]`,
`Config::set_permanent_password` returns the state unchanged even when the
stored password differs: the password field, the disk-write count, and the
trusted-devices state (which a real change would clear) are all
untouched. -/
theorem set_permanent_password_hard_noop (env : TDEnv) (st : PPState)
    (p : String)
    (hhard : SMap.get st.hardSettings "password" = some p)
    (hdiff : ¬ st.password = p) :
    Config.set_permanent_password env st p = st := by
  simp [Config.set_permanent_password, hhard]

/-- C10 witness: the hard password `"hard"` with a differing stored
password `"other"` leaves the concrete state untouched. -/
theorem set_permanent_password_hard_noop_witness :
    Config.set_permanent_password tdWitnessEnv
      ⟨[("password", "hard")], "other", 0, ⟨[], ([], true), 0⟩⟩ "hard"
      = ⟨[("password", "hard")], "other", 0, ⟨[], ([], true), 0⟩⟩ :=
  set_permanent_password_hard_noop tdWitnessEnv
    ⟨[("password", "hard")], "other", 0, ⟨[], ([], true), 0⟩⟩ "hard"
    (by decide) (by decide)

/-! ## C8: tolerant numeric decoders replace out-of-range values with the
default -/

/-- C8: `custom_image_quality` is kept exactly when it is a one-element
list with element in `[10, 4095]` — otherwise the default replaces it —
and `trackpad_speed` is kept exactly when it lies in `[10, 1000]`;
in particular `[50]` and `100` are preserved while `[5]`, `5` and `1001`
are replaced. -/
theorem deserialize_ranges (dq : List Int) (dt : Int) :
    (∀ x : Int, 10 ≤ x → x ≤ 4095 →
      PeerConfig.deserialize_custom_image_quality dq [x] = [x]) ∧
    (∀ x : Int, ¬ (10 ≤ x ∧ x ≤ 4095) →
      PeerConfig.deserialize_custom_image_quality dq [x] = dq) ∧
    (∀ v : List Int, v.length ≠ 1 →
      PeerConfig.deserialize_custom_image_quality dq v = dq) ∧
    (∀ t : Int, 10 ≤ t → t ≤ 1000 →
      PeerConfig.deserialize_trackpad_speed dt t = t) ∧
    (∀ t : Int, ¬ (10 ≤ t ∧ t ≤ 1000) →
      PeerConfig.deserialize_trackpad_speed dt t = dt) ∧
    PeerConfig.deserialize_custom_image_quality dq [50] = [50] ∧
    PeerConfig.deserialize_custom_image_quality dq [5] = dq ∧
    PeerConfig.deserialize_trackpad_speed dt 100 = 100 ∧
    PeerConfig.deserialize_trackpad_speed dt 5 = dt ∧
    PeerConfig.deserialize_trackpad_speed dt 1001 = dt := by
  refine ⟨?_, ?_, ?_, ?_, ?_, ?_, ?_, ?_, ?_, ?_⟩
  · intro x h1 h2
    simp [PeerConfig.deserialize_custom_image_quality, h1, h2]
  · intro x h
    rw [PeerConfig.deserialize_custom_image_quality, if_neg]
    simp only [List.length_singleton, List.headD_cons]
    tauto
  · intro v h
    rw [PeerConfig.deserialize_custom_image_quality, if_neg]
    tauto
  · intro t h1 h2
    simp [PeerConfig.deserialize_trackpad_speed, h1, h2]
  · intro t h
    simp [PeerConfig.deserialize_trackpad_speed, h]
  · norm_num [PeerConfig.deserialize_custom_image_quality]
  · norm_num [PeerConfig.deserialize_custom_image_quality]
  · norm_num [PeerConfig.deserialize_trackpad_speed]
  · norm_num [PeerConfig.deserialize_trackpad_speed]
  · norm_num [PeerConfig.deserialize_trackpad_speed]

/-- C8 witness: the decoders at concrete defaults and raw values. -/
theorem deserialize_ranges_witness :
    PeerConfig.deserialize_custom_image_quality [7] [50] = [50] ∧
    PeerConfig.deserialize_custom_image_quality [7] [5] = [7] ∧
    PeerConfig.deserialize_custom_image_quality [7] [10, 20] = [7] ∧
    PeerConfig.deserialize_trackpad_speed 9 100 = 100 ∧
    PeerConfig.deserialize_trackpad_speed 9 1001 = 9 :=
  ⟨(deserialize_ranges [7] 9).1 50 (by decide) (by decide),
   (deserialize_ranges [7] 9).2.1 5 (by decide),
   (deserialize_ranges [7] 9).2.2.1 [10, 20] (by decide),
   (deserialize_ranges [7] 9).2.2.2.1 100 (by decide) (by decide),
   (deserialize_ranges [7] 9).2.2.2.2.1 1001 (by decide)⟩

/-! ## C7: peer-file stem encoding and listing recovery

The base64 alphabet inverts, base64 round-trips on byte lists, and the
stem round trip holds for ids with forbidden characters — but an id that
itself starts with `base64_` is stored verbatim and then wrongly
base64-decoded by the listing. -/

theorem b64Inv_b64Char : ∀ n : Nat, n < 64 → b64Inv (b64Char n) = some n := by
  decide

theorem b64Char_ne_61 : ∀ n : Nat, n < 64 → b64Char n ≠ 61 := by
  decide

theorem decode64_encode64 :
    ∀ l : List Nat, (∀ b ∈ l, b < 256) → decode64 (encode64 l) = some l
  | [] => fun _ => rfl
  | [a] => fun h => by
    have ha : a < 256 := h a (by simp)
    have h1 : a / 4 < 64 := by omega
    have h2 : a % 4 * 16 < 64 := by omega
    simp [encode64, decode64, b64Inv_b64Char _ h1, b64Inv_b64Char _ h2]
    omega
  | [a, b] => fun h => by
    have ha : a < 256 := h a (by simp)
    have hb : b < 256 := h b (by simp)
    have h1 : a / 4 < 64 := by omega
    have h2 : a % 4 * 16 + b / 16 < 64 := by omega
    have h3 : b % 16 * 4 < 64 := by omega
    simp [encode64, decode64, b64Inv_b64Char _ h1, b64Inv_b64Char _ h2,
      b64Inv_b64Char _ h3, b64Char_ne_61 _ h3]
    omega
  | a :: b :: c :: rest => fun h => by
    have ha : a < 256 := h a (by simp)
    have hb : b < 256 := h b (by simp)
    have hc : c < 256 := h c (by simp)
    have ih := decode64_encode64 rest (fun x hx => h x (by simp [hx]))
    have h1 : a / 4 < 64 := by omega
    have h2 : a % 4 * 16 + b / 16 < 64 := by omega
    have h3 : b % 16 * 4 + c / 64 < 64 := by omega
    have h4 : c % 64 < 64 := by omega
    have e1 : a / 4 * 4 + (a % 4 * 16 + b / 16) / 16 = a := by omega
    have e2 : (a % 4 * 16 + b / 16) % 16 * 16 + (b % 16 * 4 + c / 64) / 4 = b := by
      omega
    have e3 : (b % 16 * 4 + c / 64) % 4 * 64 + c % 64 = c := by omega
    simp [encode64, decode64, b64Inv_b64Char _ h1, b64Inv_b64Char _ h2,
      b64Inv_b64Char _ h3, b64Inv_b64Char _ h4, b64Char_ne_61 _ h3,
      b64Char_ne_61 _ h4, ih, e1, e2, e3]

theorem isPrefixOf_append_self (p q : List Nat) :
    p.isPrefixOf (p ++ q) = true := by
  induction p with
  | nil => simp [List.isPrefixOf]
  | cons a t ih => simp [List.isPrefixOf, ih]

theorem encode64_ne_nil (l : List Nat) (h : l ≠ []) : encode64 l ≠ [] := by
  match l, h with
  | a :: t, _ =>
    cases t with
    | nil => simp [encode64]
    | cons b t2 => cases t2 <;> simp [encode64]

/-- C7 counterexample: the id `"base64_YWJj"` (bytes
`base64Prefix ++ [89, 87, 74, 106]`) contains no forbidden character, so
its stem is the id verbatim — but the listing sees the `base64_` prefix
and decodes the remainder, recovering `"abc"` (`[97, 98, 99]`) instead of
the original id. -/
theorem peer_id_base64_prefix_counterexample :
    (base64Prefix ++ [89, 87, 74, 106]).any forbiddenByte = false ∧
    PeerConfig.pathStem (base64Prefix ++ [89, 87, 74, 106])
      = base64Prefix ++ [89, 87, 74, 106] ∧
    PeerConfig.recoverId
        (PeerConfig.pathStem (base64Prefix ++ [89, 87, 74, 106]))
      = [97, 98, 99] ∧
    ([97, 98, 99] : List Nat) ≠ base64Prefix ++ [89, 87, 74, 106] :=
  ⟨by decide, by decide, by decide, by decide⟩

/-- C7 amended: for every byte-valid peer ID containing one of the
forbidden characters `< > : / \ | ? *`, the stem is `base64_` plus the
base64 encoding of the ID and the listing recovers exactly the original
ID; for every ID without those characters the stem is the ID verbatim,
and it is recovered exactly provided the ID does not itself start with
`base64_` while having length other than 7 (such IDs are wrongly
base64-decoded by the listing). -/
theorem peer_stem_roundtrip (id : List Nat) (hbytes : ∀ b ∈ id, b < 256) :
    (id.any forbiddenByte = true →
      PeerConfig.pathStem id = base64Prefix ++ encode64 id ∧
      PeerConfig.recoverId (PeerConfig.pathStem id) = id) ∧
    (id.any forbiddenByte = false → PeerConfig.pathStem id = id) ∧
    (id.any forbiddenByte = false →
      ¬ (base64Prefix.isPrefixOf id = true ∧ id.length ≠ 7) →
      PeerConfig.recoverId (PeerConfig.pathStem id) = id) := by
  refine ⟨?_, ?_, ?_⟩
  · intro hforb
    have hstem : PeerConfig.pathStem id = base64Prefix ++ encode64 id := by
      simp [PeerConfig.pathStem, hforb]
    refine ⟨hstem, ?_⟩
    rw [hstem]
    have hne : id ≠ [] := by
      intro he
      subst he
      simp at hforb
    have henc : encode64 id ≠ [] := encode64_ne_nil id hne
    have hpre : base64Prefix.isPrefixOf (base64Prefix ++ encode64 id)
        = true :=
      isPrefixOf_append_self base64Prefix (encode64 id)
    have hlen : (base64Prefix ++ encode64 id).length ≠ 7 := by
      have hlen0 : (encode64 id).length ≠ 0 := by
        intro hz
        exact henc (List.length_eq_zero.mp hz)
      have h7 : base64Prefix.length = 7 := rfl
      simp only [List.length_append, h7]
      omega
    rw [PeerConfig.recoverId, if_pos ⟨hpre, hlen⟩]
    have hdrop : (base64Prefix ++ encode64 id).drop 7 = encode64 id := by
      rw [show (7 : Nat) = base64Prefix.length from rfl, List.drop_left]
    rw [hdrop, decode64_encode64 id hbytes]
    rfl
  · intro h
    simp [PeerConfig.pathStem, h]
  · intro h hng
    have hstem : PeerConfig.pathStem id = id := by
      simp [PeerConfig.pathStem, h]
    rw [hstem, PeerConfig.recoverId, if_neg hng]

/-- C7 amended witness: the spec's id `"a/b:c"` (bytes
`[97, 47, 98, 58, 99]`) round-trips through the base64 stem, and the
plain id `"abc"` round-trips verbatim. -/
theorem peer_stem_roundtrip_witness :
    PeerConfig.pathStem [97, 47, 98, 58, 99]
      = base64Prefix ++ encode64 [97, 47, 98, 58, 99] ∧
    PeerConfig.recoverId (PeerConfig.pathStem [97, 47, 98, 58, 99])
      = [97, 47, 98, 58, 99] ∧
    PeerConfig.pathStem [97, 98, 99] = [97, 98, 99] ∧
    PeerConfig.recoverId (PeerConfig.pathStem [97, 98, 99])
      = [97, 98, 99] :=
  ⟨((peer_stem_roundtrip [97, 47, 98, 58, 99] (by decide)).1 (by decide)).1,
   ((peer_stem_roundtrip [97, 47, 98, 58, 99] (by decide)).1 (by decide)).2,
   (peer_stem_roundtrip [97, 98, 99] (by decide)).2.1 (by decide),
   (peer_stem_roundtrip [97, 98, 99] (by decide)).2.2 (by decide)
     (by decide)⟩

end HbbConfig
